import Mathlib

/-!
Shallow embedding of `python_qt_hangul_input.py` (class
`PythonQtHangulInputFilter`): the jamo tables, the composition state machine
(`__update_status`), the syllable renderer (`__get_current_char`), the edit
controller (`__show_input`) and the Qt event filter (`eventFilter`).

Conventions of the embedding:
* the composition stack `__prev_keys` is a `List` in insertion order
  (`append` at the end models `list.append`, `dropLast` models `del l[-1]`,
  `getLast?` models `l[-1]`);
* Python exceptions (`KeyError` on a missing dict key, `AssertionError`,
  and exhaustion of the recursion fuel) are modelled by `Option`: `none`
  means the Python code would raise;
* characters are modelled by their codepoints (`Nat`);
* the display side effects posted by `__remove_char` / `__write_char`
  are collected as an explicit list of `DispOp`s;
* the mutual recursion of `__update_status` with its local helpers
  `reset_and_recurse` / `on_moeum_later_jongseong` is expressed with an
  explicit fuel; in the source the recursion depth is at most 2, so the
  top-level entry point fixes the fuel at 3.
-/

/-- The `_Status_Types` enum of the source. -/
inductive StatusType where
  | choseong
  | jungseong
  | jungseongIjung
  | jongseong
  | jongseongSsang
  | jongseongGeop
  | moeum
  | moeumCombined
deriving DecidableEq, Repr

/-- One entry of `__prev_keys`: a `(_Status_Types, int)` pair. -/
abbrev Slot := StatusType × Nat

/-- The `_JAEUM_KEYS` dict: Qt key code → `(plain code, shift code | None)`. -/
def jaeumKeys (k : Nat) : Option (Nat × Option Nat) :=
  if k = 82 then some (0, some 1)         -- Qt.Key_R
  else if k = 83 then some (3, none)      -- Qt.Key_S
  else if k = 69 then some (6, some 7)    -- Qt.Key_E
  else if k = 70 then some (8, none)      -- Qt.Key_F
  else if k = 65 then some (16, none)     -- Qt.Key_A
  else if k = 81 then some (17, some 18)  -- Qt.Key_Q
  else if k = 84 then some (20, some 21)  -- Qt.Key_T
  else if k = 68 then some (22, none)     -- Qt.Key_D
  else if k = 87 then some (23, some 24)  -- Qt.Key_W
  else if k = 67 then some (25, none)     -- Qt.Key_C
  else if k = 90 then some (26, none)     -- Qt.Key_Z
  else if k = 88 then some (27, none)     -- Qt.Key_X
  else if k = 86 then some (28, none)     -- Qt.Key_V
  else if k = 71 then some (29, none)     -- Qt.Key_G
  else none

/-- The `_MOEUM_KEYS` dict: Qt key code → `(plain code, shift code)`. -/
def moeumKeys : Nat → Option (Nat × Nat)
  | 75 => some (0, 0)    -- Qt.Key_K
  | 79 => some (1, 3)    -- Qt.Key_O
  | 73 => some (2, 2)    -- Qt.Key_I
  | 74 => some (4, 4)    -- Qt.Key_J
  | 80 => some (5, 7)    -- Qt.Key_P
  | 85 => some (6, 6)    -- Qt.Key_U
  | 72 => some (8, 8)    -- Qt.Key_H
  | 89 => some (12, 12)  -- Qt.Key_Y
  | 78 => some (13, 13)  -- Qt.Key_N
  | 66 => some (17, 17)  -- Qt.Key_B
  | 77 => some (18, 18)  -- Qt.Key_M
  | 76 => some (20, 20)  -- Qt.Key_L
  | _ => none

/-- The `_JAEUM_COMBINATIONS` dict (final-consonant cluster pairs). -/
def jaeumCombinations (p : Nat × Nat) : Option Nat :=
  if p = (0, 20) then some 2
  else if p = (3, 23) then some 4
  else if p = (3, 29) then some 5
  else if p = (8, 0) then some 9
  else if p = (8, 16) then some 10
  else if p = (8, 17) then some 11
  else if p = (8, 20) then some 12
  else if p = (8, 27) then some 13
  else if p = (8, 28) then some 14
  else if p = (8, 29) then some 15
  else if p = (17, 20) then some 19
  else none

/-- The `_MOEUM_COMBINATIONS` dict (combined-vowel pairs). -/
def moeumCombinations : Nat × Nat → Option Nat
  | (8, 0) => some 9
  | (8, 1) => some 10
  | (8, 20) => some 11
  | (13, 4) => some 14
  | (13, 5) => some 15
  | (13, 20) => some 16
  | _ => none

/-- The `_JAEUM_TO_CHOSEONG` dict (consonant identity → initial index). -/
def jaeumToChoseong : Nat → Option Nat
  | 0 => some 0
  | 1 => some 1
  | 3 => some 2
  | 6 => some 3
  | 7 => some 4
  | 8 => some 5
  | 16 => some 6
  | 17 => some 7
  | 18 => some 8
  | 20 => some 9
  | 21 => some 10
  | 22 => some 11
  | 23 => some 12
  | 24 => some 13
  | 25 => some 14
  | 26 => some 15
  | 27 => some 16
  | 28 => some 17
  | 29 => some 18
  | _ => none

/-- The `_JAEUM_TO_JONGSEONG` dict (consonant identity → final index). -/
def jaeumToJongseong : Nat → Option Nat
  | 0 => some 1
  | 1 => some 2
  | 2 => some 3
  | 3 => some 4
  | 4 => some 5
  | 5 => some 6
  | 6 => some 7
  | 8 => some 8
  | 9 => some 9
  | 10 => some 10
  | 11 => some 11
  | 12 => some 12
  | 13 => some 13
  | 14 => some 14
  | 15 => some 15
  | 16 => some 16
  | 17 => some 17
  | 19 => some 18
  | 20 => some 19
  | 21 => some 20
  | 22 => some 21
  | 23 => some 22
  | 25 => some 23
  | 26 => some 24
  | 27 => some 25
  | 28 => some 26
  | 29 => some 27
  | _ => none

/-- A display side effect posted to the target widget: `__remove_char`
posts a backspace (`remove`), `__write_char` posts one character
(`write`, by codepoint). -/
inductive DispOp where
  | remove
  | write (c : Nat)
deriving DecidableEq, Repr

/-- The mutable state of the filter that the composition core touches:
`__prev_keys` and `__do_not_remove_prev_chr`. -/
structure Engine where
  prevKeys : List Slot
  doNotRemovePrevChr : Bool
deriving DecidableEq, Repr

/-- The `while True` loop of `__get_current_char`, iterating over
`reversed(self.__prev_keys)` (so the argument list here is the stack
reversed), accumulating `result_code`.  `none` models a `KeyError` or a
failed `assert`; a `StopIteration` raised by the inner `next(it)` calls is
caught by the surrounding `except StopIteration: pass`. -/
def renderLoop : List Slot → Nat → Option Nat
  | [], acc => some acc
  | [(t, c)], acc =>
    match t with
    | StatusType.jungseongIjung => some acc
    | StatusType.jongseongGeop => some acc
    | StatusType.choseong =>
      match jaeumToChoseong c with
      | some ch => some (acc + ch * 588)
      | none => none
    | StatusType.jungseong => some (acc + c * 28)
    | StatusType.jongseong =>
      match jaeumToJongseong c with
      | some j => some (acc + j)
      | none => none
    | StatusType.jongseongSsang =>
      match jaeumToJongseong c with
      | some j => some (acc + j)
      | none => none
    | _ => some acc
  | (t, c) :: (t1, c1) :: rest1, acc =>
    match t with
    | StatusType.jungseongIjung =>
      if t1 = StatusType.jungseong then
        match moeumCombinations (c1, c) with
        | some cc => renderLoop rest1 (acc + cc * 28)
        | none => none
      else none
    | StatusType.jongseongGeop =>
      if t1 = StatusType.jongseong then
        match jaeumCombinations (c1, c) with
        | some cc =>
          match jaeumToJongseong cc with
          | some j => renderLoop rest1 (acc + j)
          | none => none
        | none => none
      else none
    | StatusType.choseong =>
      match jaeumToChoseong c with
      | some ch => some (acc + ch * 588)
      | none => none
    | StatusType.jungseong => renderLoop ((t1, c1) :: rest1) (acc + c * 28)
    | StatusType.jongseong =>
      match jaeumToJongseong c with
      | some j => renderLoop ((t1, c1) :: rest1) (acc + j)
      | none => none
    | StatusType.jongseongSsang =>
      match jaeumToJongseong c with
      | some j => renderLoop ((t1, c1) :: rest1) (acc + j)
      | none => none
    | _ => renderLoop ((t1, c1) :: rest1) acc

/-- The `__get_current_char` renderer.  Result `some none` is the empty
string (empty stack), `some (some cp)` is the one-character string with
codepoint `cp`, and `none` models a raised exception. -/
def getCurrentChar : List Slot → Option (Option Nat)
  | [] => some none
  | (t0, c0) :: rest =>
    if t0 = StatusType.moeum then
      match rest with
      | [] => some (some (c0 + 0x314F))
      | (_, c1) :: _ =>
        match moeumCombinations (c0, c1) with
        | some cc => some (some (cc + 0x314F))
        | none => none
    else
      match rest with
      | [] => some (some (c0 + 0x3131))
      | _ =>
        match renderLoop (((t0, c0) :: rest).reverse) 0 with
        | some r => some (some (r + 0xAC00))
        | none => none

/-- The `__show_input` method: render the current stack and emit the
display operations.  `removeLeftChr` is the optional `remove_left_chr`
argument.  `none` models a raised exception (from the renderer, or the
`len(char) == 1` assertion of `__write_char` on an empty string). -/
def showInput (e : Engine) (removeLeftChr : Option Bool) :
    Option (Engine × List DispOp) :=
  match getCurrentChar e.prevKeys with
  | none => none
  | some chOpt =>
    if e.prevKeys.length = 0 then some (e, [])
    else
      match chOpt with
      | some ch =>
        some ({ e with doNotRemovePrevChr := false },
              (match removeLeftChr with
               | some b => if b then [DispOp.remove] else []
               | none =>
                 if e.prevKeys.length ≠ 1 ∧ e.doNotRemovePrevChr = false then
                   [DispOp.remove]
                 else []) ++ [DispOp.write ch])
      | none => none

/-- The `__update_status` method with an explicit recursion fuel for its
local helpers `reset_and_recurse` and `on_moeum_later_jongseong` (in the
source the recursion depth never exceeds 2). -/
def updateStatusFuel : Nat → Bool → Bool → Nat → Engine →
    Option (Engine × List DispOp)
  | 0, _, _, _, _ => none
  | fuel + 1, isJaeum, isSsangjaeum, code, e =>
    match e.prevKeys.getLast? with
    | none =>
      let slot : Slot :=
        if isJaeum then (StatusType.choseong, code)
        else (StatusType.moeum, code)
      showInput { e with prevKeys := e.prevKeys ++ [slot] } none
    | some (prevType, prevCode) =>
      let resetRec : Option (Engine × List DispOp) :=
        updateStatusFuel fuel isJaeum isSsangjaeum code
          { e with prevKeys := [] }
      let onMoeumLaterJongseong : Option (Engine × List DispOp) :=
        match showInput { e with prevKeys := e.prevKeys.dropLast } none with
        | none => none
        | some (_, ops1) =>
          match updateStatusFuel fuel isJaeum isSsangjaeum code
              { prevKeys := [(StatusType.choseong, prevCode)],
                doNotRemovePrevChr := true } with
          | none => none
          | some (e4, ops2) => some (e4, ops1 ++ ops2)
      match prevType with
      | StatusType.choseong =>
        if isJaeum then resetRec
        else
          showInput
            { e with prevKeys := e.prevKeys ++ [(StatusType.jungseong, code)] }
            none
      | StatusType.jungseong =>
        if isJaeum then
          if (jaeumToJongseong code).isSome then
            showInput
              { e with prevKeys := e.prevKeys ++
                  [(if isSsangjaeum then StatusType.jongseongSsang
                    else StatusType.jongseong, code)] }
              none
          else resetRec
        else
          if (moeumCombinations (prevCode, code)).isSome then
            showInput
              { e with prevKeys := e.prevKeys ++
                  [(StatusType.jungseongIjung, code)] }
              none
          else resetRec
      | StatusType.jungseongIjung =>
        if isJaeum = false ∨ (jaeumToJongseong code).isSome = false then
          resetRec
        else
          showInput
            { e with prevKeys := e.prevKeys ++
                [(if isSsangjaeum then StatusType.jongseongSsang
                  else StatusType.jongseong, code)] }
            none
      | StatusType.jongseong =>
        if isJaeum then
          if (jaeumCombinations (prevCode, code)).isSome then
            showInput
              { e with prevKeys := e.prevKeys ++
                  [(StatusType.jongseongGeop, code)] }
              none
          else resetRec
        else onMoeumLaterJongseong
      | StatusType.jongseongSsang =>
        if isJaeum then resetRec else onMoeumLaterJongseong
      | StatusType.jongseongGeop =>
        if isJaeum then resetRec else onMoeumLaterJongseong
      | StatusType.moeum =>
        if isJaeum = false ∧ (moeumCombinations (prevCode, code)).isSome then
          showInput
            { e with prevKeys := e.prevKeys ++
                [(StatusType.moeumCombined, code)] }
            none
        else resetRec
      | StatusType.moeumCombined => resetRec

/-- Top-level entry point for `__update_status` (fuel 3 covers the
source's recursion depth of at most 2). -/
def updateStatus : Bool → Bool → Nat → Engine →
    Option (Engine × List DispOp) := updateStatusFuel 3

/-- Qt constant `Qt.Key_Hangul`. -/
def keyHangul : Nat := 0x01001131

/-- Qt constant `Qt.Key_Backspace`. -/
def keyBackspace : Nat := 0x01000003

/-- Qt constant `Qt.Key_Shift`. -/
def keyShift : Nat := 0x01000020

/-- Qt constant `Qt.ShiftModifier`. -/
def shiftModifier : Nat := 0x02000000

/-- The full per-object state of `PythonQtHangulInputFilter`. -/
structure QFilter where
  isHangulMode : Bool
  doNotRemovePrevChr : Bool
  prevKeys : List Slot
deriving DecidableEq, Repr

/-- The initial state set up by `__init__`. -/
def filterInit : QFilter :=
  { isHangulMode := false, doNotRemovePrevChr := false, prevKeys := [] }

/-- An incoming Qt event, as far as `eventFilter` inspects it: a
`FocusOut` focus event, a key press (key code, modifier bitmask,
auto-repeat flag), or anything else. -/
inductive Ev where
  | focusOut
  | keyPress (key : Nat) (modifiers : Nat) (autoRep : Bool)
  | other
deriving DecidableEq, Repr

/-- The consonant-key code selection of `eventFilter` (lines
`code = codes[shift_pressed]` through `is_ssangjaeum = shift_pressed`):
yields `(is_ssangjaeum, code)`. -/
def selectJaeum (shiftPressed : Bool) (codes : Nat × Option Nat) :
    Bool × Nat :=
  match (if shiftPressed then codes.2 else some codes.1) with
  | none => (false, codes.1)
  | some c => (shiftPressed, c)

/-- The `eventFilter` method.  Returns the new filter state, the display
operations posted to the source widget, and the boolean the method
returns; `none` models a raised exception. -/
def eventFilter : QFilter → Ev → Option (QFilter × List DispOp × Bool)
  | f, Ev.focusOut => some ({ f with prevKeys := [] }, [], false)
  | f, Ev.other => some (f, [], false)
  | f, Ev.keyPress key mods autoRep =>
    if key = keyHangul then
      if f.isHangulMode then
        some ({ f with isHangulMode := false, prevKeys := [] }, [], true)
      else some ({ f with isHangulMode := true }, [], true)
    else if f.isHangulMode = false then some (f, [], false)
    else if key = keyBackspace then
      if autoRep = false ∧ f.prevKeys ≠ [] then
        match showInput
            { prevKeys := f.prevKeys.dropLast,
              doNotRemovePrevChr := f.doNotRemovePrevChr } (some false) with
        | none => none
        | some (e2, ops) =>
          some ({ f with
                    prevKeys := e2.prevKeys,
                    doNotRemovePrevChr := e2.doNotRemovePrevChr },
                DispOp.remove :: ops, true)
      else some (f, [], false)
    else if mods - (mods &&& shiftModifier) ≠ 0 then
      some ({ f with prevKeys := [] }, [], false)
    else
      match jaeumKeys key with
      | some codes =>
        match updateStatus true
            (selectJaeum (decide (mods &&& shiftModifier ≠ 0)) codes).1
            (selectJaeum (decide (mods &&& shiftModifier ≠ 0)) codes).2
            { prevKeys := f.prevKeys,
              doNotRemovePrevChr := f.doNotRemovePrevChr } with
        | none => none
        | some (e2, ops) =>
          some ({ f with
                    prevKeys := e2.prevKeys,
                    doNotRemovePrevChr := e2.doNotRemovePrevChr }, ops, true)
      | none =>
        match moeumKeys key with
        | some codes =>
          match updateStatus false false
              (if decide (mods &&& shiftModifier ≠ 0) then codes.2
               else codes.1)
              { prevKeys := f.prevKeys,
                doNotRemovePrevChr := f.doNotRemovePrevChr } with
          | none => none
          | some (e2, ops) =>
            some ({ f with
                      prevKeys := e2.prevKeys,
                      doNotRemovePrevChr := e2.doNotRemovePrevChr }, ops, true)
        | none =>
          if key ≠ 0 ∧ key ≠ keyShift then
            some ({ f with prevKeys := [] }, [], false)
          else some (f, [], false)

/-- Deliver a list of events to the filter in order, threading the state
(`none` as soon as one event raises). -/
def processEvents : List Ev → QFilter → Option QFilter
  | [], f => some f
  | ev :: rest, f =>
    match eventFilter f ev with
    | none => none
    | some (f2, _, _) => processEvents rest f2

/-- A classified jamo input (the arguments `__update_status` is called
with), or a backspace, for driving the composition core directly. -/
inductive JInput where
  | jamo (isJaeum isSsangjaeum : Bool) (code : Nat)
  | backspace
deriving DecidableEq, Repr

/-- One step of the composition core on a classified input: a jamo input
goes through `__update_status`; backspace pops the last slot and
re-renders, as the backspace branch of `eventFilter` does. -/
def stepInput (e : Engine) : JInput → Option Engine
  | JInput.jamo j s c => (updateStatus j s c e).map Prod.fst
  | JInput.backspace =>
    if e.prevKeys = [] then some e
    else
      (showInput { e with prevKeys := e.prevKeys.dropLast }
        (some false)).map Prod.fst

/-- Apply a list of classified inputs to the composition core in order. -/
def runInputs : List JInput → Engine → Option Engine
  | [], e => some e
  | i :: rest, e =>
    match stepInput e i with
    | none => none
    | some e2 => runInputs rest e2

/-- Interpretation of a display-operation list against a text buffer
(list of codepoints): `write` appends one character, `remove` (the
posted backspace) deletes the last one. -/
def applyOps : List DispOp → List Nat → List Nat
  | [], buf => buf
  | DispOp.write c :: rest, buf => applyOps rest (buf ++ [c])
  | DispOp.remove :: rest, buf => applyOps rest buf.dropLast

/-- Run a list of classified inputs from an engine state, also
accumulating every display operation emitted along the way. -/
def runInputsOps : List JInput → Engine → Option (Engine × List DispOp)
  | [], e => some (e, [])
  | JInput.jamo j s c :: rest, e =>
    match updateStatus j s c e with
    | none => none
    | some (e2, ops) =>
      match runInputsOps rest e2 with
      | none => none
      | some (e3, opsRest) => some (e3, ops ++ opsRest)
  | JInput.backspace :: rest, e =>
    if e.prevKeys = [] then runInputsOps rest e
    else
      match showInput { e with prevKeys := e.prevKeys.dropLast }
          (some false) with
      | none => none
      | some (e2, ops) =>
        match runInputsOps rest e2 with
        | none => none
        | some (e3, opsRest) =>
          some (e3, DispOp.remove :: ops ++ opsRest)

/-- Convenience predicate: the consonant identity has an initial index. -/
def chosOk (c : Nat) : Bool := (jaeumToChoseong c).isSome

/-- Convenience predicate for a lone final slot's code: it has a final
index (checked at push time) and an initial index (needed if it later
migrates into the next syllable's initial position). -/
def finSlotOk (c : Nat) : Bool :=
  (jaeumToJongseong c).isSome && (jaeumToChoseong c).isSome

/-- Convenience predicate for a final-cluster pair `(c0, c1)` (slots
`JONGSEONG c0` then `JONGSEONG_GEOP c1`). -/
def geopOk (c0 c1 : Nat) : Bool :=
  finSlotOk c0 &&
  (match jaeumCombinations (c0, c1) with
   | some cc => (jaeumToJongseong cc).isSome && (jaeumToChoseong c1).isSome
   | none => false)

/-- The stack shapes `__update_status` can ever produce, roles only
(codes unconstrained). -/
def shapeOk : List Slot → Bool
  | [] => true
  | [(StatusType.moeum, _)] => true
  | [(StatusType.moeum, _), (StatusType.moeumCombined, _)] => true
  | [(StatusType.choseong, _)] => true
  | [(StatusType.choseong, _), (StatusType.jungseong, _)] => true
  | [(StatusType.choseong, _), (StatusType.jungseong, _),
     (StatusType.jungseongIjung, _)] => true
  | [(StatusType.choseong, _), (StatusType.jungseong, _),
     (StatusType.jongseong, _)] => true
  | [(StatusType.choseong, _), (StatusType.jungseong, _),
     (StatusType.jongseongSsang, _)] => true
  | [(StatusType.choseong, _), (StatusType.jungseong, _),
     (StatusType.jungseongIjung, _), (StatusType.jongseong, _)] => true
  | [(StatusType.choseong, _), (StatusType.jungseong, _),
     (StatusType.jungseongIjung, _), (StatusType.jongseongSsang, _)] => true
  | [(StatusType.choseong, _), (StatusType.jungseong, _),
     (StatusType.jongseong, _), (StatusType.jongseongGeop, _)] => true
  | [(StatusType.choseong, _), (StatusType.jungseong, _),
     (StatusType.jungseongIjung, _), (StatusType.jongseong, _),
     (StatusType.jongseongGeop, _)] => true
  | _ => false

/-- Full validity invariant of a reachable stack: a valid shape, and
every code supports all table lookups the renderer and a later
migration may perform on it. -/
def stackOk : List Slot → Bool
  | [] => true
  | [(StatusType.moeum, _)] => true
  | [(StatusType.moeum, v), (StatusType.moeumCombined, w)] =>
    (moeumCombinations (v, w)).isSome
  | [(StatusType.choseong, a)] => chosOk a
  | [(StatusType.choseong, a), (StatusType.jungseong, _)] => chosOk a
  | [(StatusType.choseong, a), (StatusType.jungseong, b),
     (StatusType.jungseongIjung, c)] =>
    chosOk a && (moeumCombinations (b, c)).isSome
  | [(StatusType.choseong, a), (StatusType.jungseong, _),
     (StatusType.jongseong, c)] => chosOk a && finSlotOk c
  | [(StatusType.choseong, a), (StatusType.jungseong, _),
     (StatusType.jongseongSsang, c)] => chosOk a && finSlotOk c
  | [(StatusType.choseong, a), (StatusType.jungseong, b),
     (StatusType.jungseongIjung, c), (StatusType.jongseong, d)] =>
    chosOk a && (moeumCombinations (b, c)).isSome && finSlotOk d
  | [(StatusType.choseong, a), (StatusType.jungseong, b),
     (StatusType.jungseongIjung, c), (StatusType.jongseongSsang, d)] =>
    chosOk a && (moeumCombinations (b, c)).isSome && finSlotOk d
  | [(StatusType.choseong, a), (StatusType.jungseong, _),
     (StatusType.jongseong, c), (StatusType.jongseongGeop, d)] =>
    chosOk a && geopOk c d
  | [(StatusType.choseong, a), (StatusType.jungseong, b),
     (StatusType.jungseongIjung, c), (StatusType.jongseong, d),
     (StatusType.jongseongGeop, e)] =>
    chosOk a && (moeumCombinations (b, c)).isSome && geopOk d e
  | _ => false

/-- Both the plain and (when present) the shift code of a consonant key
have an initial index: this is what a migrated final's code relies on. -/
def keyCodesOk (v : Nat × Option Nat) : Bool :=
  (jaeumToChoseong v.1).isSome &&
    (match v.2 with
     | some s => (jaeumToChoseong s).isSome
     | none => true)

/-- A classified jamo input: the classifier only emits consonant codes
that have an initial index (`_JAEUM_TO_CHOSEONG`), which a later
migration relies on; vowel inputs and backspace carry no condition. -/
def inputOk : JInput → Bool
  | JInput.jamo j _ c => !j || (jaeumToChoseong c).isSome
  | JInput.backspace => true

/-- How one `__update_status` call relates the new stack to the old: a
push appends exactly one slot; a reset leaves a single freshly pushed
slot (with the old stack nonempty); a migration leaves the two-slot new
syllable (and only fires on stacks of at least three slots). -/
def StackChar (pk new : List Slot) (ops : List DispOp) : Prop :=
  (∃ slot, new = pk ++ [slot]) ∨
  (new.length = 1 ∧ ∃ ch, ops = [DispOp.write ch]) ∨
  (new.length = 2 ∧ 3 ≤ pk.length)

set_option maxHeartbeats 2000000

theorem band_true_iff {a b : Bool} :
    (a && b) = true ↔ a = true ∧ b = true := by simp

theorem jaeumCombinations_jongseong {p : Nat × Nat} {cc : Nat}
    (h : jaeumCombinations p = some cc) :
    (jaeumToJongseong cc).isSome = true := by
  unfold jaeumCombinations at h
  repeat' split at h
  all_goals (try (injection h with h2; subst h2))
  all_goals first | decide | exact absurd h (by simp)

theorem jaeumKeys_none {k : Nat} (hk : 91 ≤ k) : jaeumKeys k = none := by
  unfold jaeumKeys
  repeat rw [if_neg (by omega)]

theorem jaeumKeys_codesOk (k : Nat) :
    (jaeumKeys k).all keyCodesOk = true := by
  by_cases hk : k < 91
  · have hb : ∀ k' < 91, (jaeumKeys k').all keyCodesOk = true := by decide
    exact hb k hk
  · rw [jaeumKeys_none (by omega)]
    rfl

theorem jaeumKeys_choseong {k p : Nat} {so : Option Nat}
    (h : jaeumKeys k = some (p, so)) :
    (jaeumToChoseong p).isSome = true ∧
      ∀ s, so = some s → (jaeumToChoseong s).isSome = true := by
  have hall := jaeumKeys_codesOk k
  rw [h] at hall
  simp only [Option.all_some, keyCodesOk, Bool.and_eq_true] at hall
  refine ⟨hall.1, fun s hs => ?_⟩
  rw [hs] at hall
  exact hall.2

theorem updateStatusFuel_empty (n : Nat) (j ss : Bool) (c : Nat) (b : Bool) :
    updateStatusFuel (n + 1) j ss c ⟨[], b⟩ =
      some (⟨[(if j then StatusType.choseong else StatusType.moeum, c)],
             false⟩,
            [DispOp.write (c + if j then 0x3131 else 0x314F)]) := by
  cases j <;> simp [updateStatusFuel, showInput, getCurrentChar]

theorem updateStatusFuel_seed (n : Nat) (ss : Bool) (c l cl : Nat)
    (hl : jaeumToChoseong l = some cl) :
    updateStatusFuel (n + 1) false ss c
        ⟨[(StatusType.choseong, l)], true⟩ =
      some (⟨[(StatusType.choseong, l), (StatusType.jungseong, c)], false⟩,
            [DispOp.write (c * 28 + cl * 588 + 0xAC00)]) := by
  simp [updateStatusFuel, showInput, getCurrentChar, renderLoop, hl]

theorem showInput_prevKeys {e e2 : Engine} {r : Option Bool}
    {ops : List DispOp} (h : showInput e r = some (e2, ops)) :
    e2.prevKeys = e.prevKeys := by
  unfold showInput at h
  repeat' split at h
  all_goals simp_all
  all_goals (obtain ⟨h1, h2⟩ := h; rw [← h1])

theorem getCurrentChar_ok {s : List Slot} (hok : stackOk s = true)
    (hne : s ≠ []) : ∃ ch, getCurrentChar s = some (some ch) := by
  unfold stackOk at hok
  split at hok
  · exact absurd rfl hne
  · rename_i v
    exact ⟨v + 0x314F, by simp [getCurrentChar]⟩
  · rename_i v w
    obtain ⟨cc, hcc⟩ := Option.isSome_iff_exists.mp hok
    exact ⟨cc + 0x314F, by simp [getCurrentChar, hcc]⟩
  · rename_i a
    exact ⟨a + 0x3131, by simp [getCurrentChar]⟩
  · rename_i a b
    simp only [chosOk] at hok
    obtain ⟨ca, hca⟩ := Option.isSome_iff_exists.mp hok
    exact ⟨b * 28 + ca * 588 + 0xAC00, by
      simp [getCurrentChar, renderLoop, hca]⟩
  · rename_i a b c
    simp only [chosOk, Bool.and_eq_true] at hok
    obtain ⟨ca, hca⟩ := Option.isSome_iff_exists.mp hok.1
    obtain ⟨mc, hmc⟩ := Option.isSome_iff_exists.mp hok.2
    exact ⟨mc * 28 + ca * 588 + 0xAC00, by
      simp [getCurrentChar, renderLoop, hca, hmc]⟩
  · rename_i a b c
    simp only [chosOk, finSlotOk, Bool.and_eq_true] at hok
    obtain ⟨ca, hca⟩ := Option.isSome_iff_exists.mp hok.1
    obtain ⟨fj, hfj⟩ := Option.isSome_iff_exists.mp hok.2.1
    exact ⟨fj + b * 28 + ca * 588 + 0xAC00, by
      simp [getCurrentChar, renderLoop, hca, hfj]⟩
  · rename_i a b c
    simp only [chosOk, finSlotOk, Bool.and_eq_true] at hok
    obtain ⟨ca, hca⟩ := Option.isSome_iff_exists.mp hok.1
    obtain ⟨fj, hfj⟩ := Option.isSome_iff_exists.mp hok.2.1
    exact ⟨fj + b * 28 + ca * 588 + 0xAC00, by
      simp [getCurrentChar, renderLoop, hca, hfj]⟩
  · rename_i a b c d
    simp only [chosOk, finSlotOk, Bool.and_eq_true] at hok
    obtain ⟨ca, hca⟩ := Option.isSome_iff_exists.mp hok.1.1
    obtain ⟨mc, hmc⟩ := Option.isSome_iff_exists.mp hok.1.2
    obtain ⟨fj, hfj⟩ := Option.isSome_iff_exists.mp hok.2.1
    exact ⟨fj + mc * 28 + ca * 588 + 0xAC00, by
      simp [getCurrentChar, renderLoop, hca, hmc, hfj]⟩
  · rename_i a b c d
    simp only [chosOk, finSlotOk, Bool.and_eq_true] at hok
    obtain ⟨ca, hca⟩ := Option.isSome_iff_exists.mp hok.1.1
    obtain ⟨mc, hmc⟩ := Option.isSome_iff_exists.mp hok.1.2
    obtain ⟨fj, hfj⟩ := Option.isSome_iff_exists.mp hok.2.1
    exact ⟨fj + mc * 28 + ca * 588 + 0xAC00, by
      simp [getCurrentChar, renderLoop, hca, hmc, hfj]⟩
  · rename_i a b c d
    simp only [chosOk, geopOk, finSlotOk, Bool.and_eq_true] at hok
    obtain ⟨ca, hca⟩ := Option.isSome_iff_exists.mp hok.1
    rcases hcomb : jaeumCombinations (c, d) with _ | cc
    · rw [hcomb] at hok
      exact absurd hok.2.2 (by simp)
    · rw [hcomb] at hok
      simp only [Bool.and_eq_true] at hok
      obtain ⟨fj, hfj⟩ := Option.isSome_iff_exists.mp hok.2.2.1
      exact ⟨fj + b * 28 + ca * 588 + 0xAC00, by
        simp [getCurrentChar, renderLoop, hca, hcomb, hfj]⟩
  · rename_i a b c d e
    simp only [chosOk, geopOk, finSlotOk, Bool.and_eq_true] at hok
    obtain ⟨ca, hca⟩ := Option.isSome_iff_exists.mp hok.1.1
    obtain ⟨mc, hmc⟩ := Option.isSome_iff_exists.mp hok.1.2
    rcases hcomb : jaeumCombinations (d, e) with _ | cc
    · rw [hcomb] at hok
      exact absurd hok.2.2 (by simp)
    · rw [hcomb] at hok
      simp only [Bool.and_eq_true] at hok
      obtain ⟨fj, hfj⟩ := Option.isSome_iff_exists.mp hok.2.2.1
      exact ⟨fj + mc * 28 + ca * 588 + 0xAC00, by
        simp [getCurrentChar, renderLoop, hca, hmc, hcomb, hfj]⟩
  · exact absurd hok (by simp)

theorem stackOk_dropLast {s : List Slot} (hok : stackOk s = true) :
    stackOk s.dropLast = true := by
  unfold stackOk at hok
  split at hok
  · exact rfl
  · exact rfl
  · exact rfl
  · exact rfl
  · exact hok
  · simp only [Bool.and_eq_true] at hok
    exact hok.1
  · simp only [Bool.and_eq_true] at hok
    exact hok.1
  · simp only [Bool.and_eq_true] at hok
    exact hok.1
  · exact (band_true_iff.mp hok).1
  · exact (band_true_iff.mp hok).1
  · exact band_true_iff.mpr ⟨(band_true_iff.mp hok).1,
      (band_true_iff.mp ((band_true_iff.mp hok).2)).1⟩
  · exact band_true_iff.mpr ⟨(band_true_iff.mp hok).1,
      (band_true_iff.mp ((band_true_iff.mp hok).2)).1⟩
  · exact Bool.noConfusion hok

theorem shapeOk_dropLast {s : List Slot} (hok : shapeOk s = true) :
    shapeOk s.dropLast = true := by
  unfold shapeOk at hok
  split at hok
  all_goals simp_all [shapeOk]

theorem shapeOk_length {s : List Slot} (hok : shapeOk s = true) :
    s.length ≤ 5 := by
  unfold shapeOk at hok
  split at hok
  all_goals simp_all

theorem showInput_isSome (e : Engine) (r : Option Bool)
    (hok : stackOk e.prevKeys = true) :
    (showInput e r).isSome = true := by
  by_cases hne : e.prevKeys = []
  · unfold showInput
    rw [hne]
    simp [getCurrentChar]
  · obtain ⟨ch, hch⟩ := getCurrentChar_ok hok hne
    have hlen : ¬e.prevKeys.length = 0 := by
      simpa [List.length_eq_zero] using hne
    unfold showInput
    rw [hch]
    simp [hlen]

theorem push_case (pushed : List Slot) (fl : Bool)
    (hok2 : stackOk pushed = true) :
    ∃ e2 ops, showInput ⟨pushed, fl⟩ none = some (e2, ops) ∧
      stackOk e2.prevKeys = true ∧ e2.prevKeys = pushed := by
  obtain ⟨⟨e2, ops⟩, hsi⟩ :=
    Option.isSome_iff_exists.mp (showInput_isSome ⟨pushed, fl⟩ none hok2)
  have hpk : e2.prevKeys = pushed := showInput_prevKeys hsi
  exact ⟨e2, ops, hsi, by rw [hpk]; exact hok2, hpk⟩

theorem reset_case (j ss : Bool) (c : Nat) (fl : Bool)
    (hc : j = true → (jaeumToChoseong c).isSome = true) :
    ∃ e2 ops, updateStatusFuel 2 j ss c ⟨[], fl⟩ = some (e2, ops) ∧
      stackOk e2.prevKeys = true ∧ e2.prevKeys.length = 1 ∧
      ∃ ch, ops = [DispOp.write ch] := by
  cases j
  · exact ⟨⟨[(StatusType.moeum, c)], false⟩, [DispOp.write (c + 0x314F)],
      updateStatusFuel_empty 1 false ss c fl, rfl, rfl, ⟨_, rfl⟩⟩
  · exact ⟨⟨[(StatusType.choseong, c)], false⟩, [DispOp.write (c + 0x3131)],
      updateStatusFuel_empty 1 true ss c fl, hc rfl, rfl, ⟨_, rfl⟩⟩

theorem migrate_case (ss : Bool) (c : Nat) (fl : Bool) (trunc : List Slot)
    (l cl : Nat) (htr : stackOk trunc = true)
    (hl : jaeumToChoseong l = some cl) :
    ∃ e2 ops,
      (match showInput ⟨trunc, fl⟩ none with
       | none => none
       | some (_, ops1) =>
         match updateStatusFuel 2 false ss c
             ⟨[(StatusType.choseong, l)], true⟩ with
         | none => none
         | some (e4, ops2) => some (e4, ops1 ++ ops2)) = some (e2, ops) ∧
      stackOk e2.prevKeys = true ∧ e2.prevKeys.length = 2 := by
  obtain ⟨⟨e1, ops1⟩, hsi⟩ :=
    Option.isSome_iff_exists.mp (showInput_isSome ⟨trunc, fl⟩ none htr)
  refine ⟨⟨[(StatusType.choseong, l), (StatusType.jungseong, c)], false⟩,
    ops1 ++ [DispOp.write (c * 28 + cl * 588 + 0xAC00)], ?_,
    by simp [stackOk, chosOk, hl], rfl⟩
  rw [hsi, show (2 : Nat) = 1 + 1 from rfl,
    updateStatusFuel_seed 1 ss c l cl hl]

theorem updateStatus_safe (j ss : Bool) (c : Nat) (pk : List Slot) (fl : Bool)
    (hok : stackOk pk = true)
    (hc : j = true → (jaeumToChoseong c).isSome = true) :
    ∃ e2 ops, updateStatus j ss c ⟨pk, fl⟩ = some (e2, ops) ∧
      (stackOk e2.prevKeys = true ∧ StackChar pk e2.prevKeys ops) := by
  unfold stackOk at hok
  split at hok
  -- empty stack
  · cases j
    · exact ⟨⟨[(StatusType.moeum, c)], false⟩, [DispOp.write (c + 0x314F)],
        updateStatusFuel_empty 2 false ss c fl, rfl,
        Or.inl ⟨(StatusType.moeum, c), rfl⟩⟩
    · exact ⟨⟨[(StatusType.choseong, c)], false⟩, [DispOp.write (c + 0x3131)],
        updateStatusFuel_empty 2 true ss c fl, hc rfl,
        Or.inl ⟨(StatusType.choseong, c), rfl⟩⟩
  -- [MOEUM v]
  · rename_i v
    cases j
    · rcases hmc : moeumCombinations (v, c) with _ | mc
      · obtain ⟨e2, ops, h2, hok2, hlen1, hch1⟩ :=
          reset_case false ss c fl (fun h => Bool.noConfusion h)
        refine ⟨e2, ops, ?_, hok2, Or.inr (Or.inl ⟨hlen1, hch1⟩)⟩
        rw [show updateStatus false ss c ⟨[(StatusType.moeum, v)], fl⟩ =
          (if false = false ∧ (moeumCombinations (v, c)).isSome = true then
            showInput ⟨[(StatusType.moeum, v), (StatusType.moeumCombined, c)],
              fl⟩ none
          else updateStatusFuel 2 false ss c ⟨[], fl⟩) from rfl, hmc]
        exact h2
      · have hok2 : stackOk [(StatusType.moeum, v),
            (StatusType.moeumCombined, c)] = true := by
          show (moeumCombinations (v, c)).isSome = true
          rw [hmc]; rfl
        obtain ⟨e2, ops, hsi, hok3, hpk⟩ := push_case _ fl hok2
        refine ⟨e2, ops, ?_, hok3, Or.inl ⟨_, by rw [hpk]; rfl⟩⟩
        rw [show updateStatus false ss c ⟨[(StatusType.moeum, v)], fl⟩ =
          (if false = false ∧ (moeumCombinations (v, c)).isSome = true then
            showInput ⟨[(StatusType.moeum, v), (StatusType.moeumCombined, c)],
              fl⟩ none
          else updateStatusFuel 2 false ss c ⟨[], fl⟩) from rfl, hmc]
        exact hsi
    · obtain ⟨e2, ops, h2, hok2, hlen1, hch1⟩ := reset_case true ss c fl hc
      exact ⟨e2, ops, h2, hok2, Or.inr (Or.inl ⟨hlen1, hch1⟩)⟩
  -- [MOEUM v, MOEUM_COMBINED w]
  · obtain ⟨e2, ops, h2, hok2, hlen1, hch1⟩ := reset_case j ss c fl hc
    exact ⟨e2, ops, h2, hok2, Or.inr (Or.inl ⟨hlen1, hch1⟩)⟩
  -- [CHOSEONG a]
  · rename_i a
    cases j
    · obtain ⟨e2, ops, hsi, hok3, hpk⟩ := push_case
        [(StatusType.choseong, a), (StatusType.jungseong, c)] fl hok
      exact ⟨e2, ops, hsi, hok3, Or.inl ⟨_, by rw [hpk]; rfl⟩⟩
    · obtain ⟨e2, ops, h2, hok2, hlen1, hch1⟩ := reset_case true ss c fl hc
      exact ⟨e2, ops, h2, hok2, Or.inr (Or.inl ⟨hlen1, hch1⟩)⟩
  -- [CHOSEONG a, JUNGSEONG b]
  · rename_i a b
    cases j
    · rcases hmc : moeumCombinations (b, c) with _ | mc
      · obtain ⟨e2, ops, h2, hok2, hlen1, hch1⟩ :=
          reset_case false ss c fl (fun h => Bool.noConfusion h)
        refine ⟨e2, ops, ?_, hok2, Or.inr (Or.inl ⟨hlen1, hch1⟩)⟩
        rw [show updateStatus false ss c
            ⟨[(StatusType.choseong, a), (StatusType.jungseong, b)], fl⟩ =
          (if (moeumCombinations (b, c)).isSome = true then
            showInput ⟨[(StatusType.choseong, a), (StatusType.jungseong, b),
              (StatusType.jungseongIjung, c)], fl⟩ none
          else updateStatusFuel 2 false ss c ⟨[], fl⟩) from rfl, hmc]
        exact h2
      · have hok2 : stackOk [(StatusType.choseong, a),
            (StatusType.jungseong, b), (StatusType.jungseongIjung, c)] =
            true := by
          show (chosOk a && (moeumCombinations (b, c)).isSome) = true
          rw [hok, hmc]; rfl
        obtain ⟨e2, ops, hsi, hok3, hpk⟩ := push_case _ fl hok2
        refine ⟨e2, ops, ?_, hok3, Or.inl ⟨_, by rw [hpk]; rfl⟩⟩
        rw [show updateStatus false ss c
            ⟨[(StatusType.choseong, a), (StatusType.jungseong, b)], fl⟩ =
          (if (moeumCombinations (b, c)).isSome = true then
            showInput ⟨[(StatusType.choseong, a), (StatusType.jungseong, b),
              (StatusType.jungseongIjung, c)], fl⟩ none
          else updateStatusFuel 2 false ss c ⟨[], fl⟩) from rfl, hmc]
        exact hsi
    · rcases hx : jaeumToJongseong c with _ | v
      · obtain ⟨e2, ops, h2, hok2, hlen1, hch1⟩ := reset_case true ss c fl hc
        refine ⟨e2, ops, ?_, hok2, Or.inr (Or.inl ⟨hlen1, hch1⟩)⟩
        rw [show updateStatus true ss c
            ⟨[(StatusType.choseong, a), (StatusType.jungseong, b)], fl⟩ =
          (if (jaeumToJongseong c).isSome = true then
            showInput ⟨[(StatusType.choseong, a), (StatusType.jungseong, b),
              (if ss = true then StatusType.jongseongSsang
               else StatusType.jongseong, c)], fl⟩ none
          else updateStatusFuel 2 true ss c ⟨[], fl⟩) from rfl, hx]
        exact h2
      · have hxs : (jaeumToJongseong c).isSome = true := by rw [hx]; rfl
        cases ss
        · have hok2 : stackOk [(StatusType.choseong, a),
              (StatusType.jungseong, b), (StatusType.jongseong, c)] =
              true := by
            show (chosOk a &&
              ((jaeumToJongseong c).isSome && (jaeumToChoseong c).isSome)) =
              true
            rw [hok, hxs, hc rfl]; rfl
          obtain ⟨e2, ops, hsi, hok3, hpk⟩ := push_case _ fl hok2
          refine ⟨e2, ops, ?_, hok3, Or.inl ⟨_, by rw [hpk]; rfl⟩⟩
          rw [show updateStatus true false c
              ⟨[(StatusType.choseong, a), (StatusType.jungseong, b)], fl⟩ =
            (if (jaeumToJongseong c).isSome = true then
              showInput ⟨[(StatusType.choseong, a), (StatusType.jungseong, b),
                (StatusType.jongseong, c)], fl⟩ none
            else updateStatusFuel 2 true false c ⟨[], fl⟩) from rfl, hx]
          exact hsi
        · have hok2 : stackOk [(StatusType.choseong, a),
              (StatusType.jungseong, b), (StatusType.jongseongSsang, c)] =
              true := by
            show (chosOk a &&
              ((jaeumToJongseong c).isSome && (jaeumToChoseong c).isSome)) =
              true
            rw [hok, hxs, hc rfl]; rfl
          obtain ⟨e2, ops, hsi, hok3, hpk⟩ := push_case _ fl hok2
          refine ⟨e2, ops, ?_, hok3, Or.inl ⟨_, by rw [hpk]; rfl⟩⟩
          rw [show updateStatus true true c
              ⟨[(StatusType.choseong, a), (StatusType.jungseong, b)], fl⟩ =
            (if (jaeumToJongseong c).isSome = true then
              showInput ⟨[(StatusType.choseong, a), (StatusType.jungseong, b),
                (StatusType.jongseongSsang, c)], fl⟩ none
            else updateStatusFuel 2 true true c ⟨[], fl⟩) from rfl, hx]
          exact hsi
  -- [CHOSEONG a, JUNGSEONG b, JUNGSEONG_IJUNG c2]
  · rename_i a b c2
    cases j
    · obtain ⟨e2, ops, h2, hok2, hlen1, hch1⟩ :=
        reset_case false ss c fl (fun h => Bool.noConfusion h)
      exact ⟨e2, ops, h2, hok2, Or.inr (Or.inl ⟨hlen1, hch1⟩)⟩
    · rcases hx : jaeumToJongseong c with _ | v
      · obtain ⟨e2, ops, h2, hok2, hlen1, hch1⟩ := reset_case true ss c fl hc
        refine ⟨e2, ops, ?_, hok2, Or.inr (Or.inl ⟨hlen1, hch1⟩)⟩
        rw [show updateStatus true ss c ⟨[(StatusType.choseong, a),
            (StatusType.jungseong, b), (StatusType.jungseongIjung, c2)],
            fl⟩ =
          (if true = false ∨ (jaeumToJongseong c).isSome = false then
            updateStatusFuel 2 true ss c ⟨[], fl⟩
          else
            showInput ⟨[(StatusType.choseong, a), (StatusType.jungseong, b),
              (StatusType.jungseongIjung, c2),
              (if ss = true then StatusType.jongseongSsang
               else StatusType.jongseong, c)], fl⟩ none) from rfl, hx]
        exact h2
      · have hxs : (jaeumToJongseong c).isSome = true := by rw [hx]; rfl
        cases ss
        · have hok2 : stackOk [(StatusType.choseong, a),
              (StatusType.jungseong, b), (StatusType.jungseongIjung, c2),
              (StatusType.jongseong, c)] = true := by
            show ((chosOk a && (moeumCombinations (b, c2)).isSome) &&
              ((jaeumToJongseong c).isSome && (jaeumToChoseong c).isSome)) =
              true
            rw [hok, hxs, hc rfl]; rfl
          obtain ⟨e2, ops, hsi, hok3, hpk⟩ := push_case _ fl hok2
          refine ⟨e2, ops, ?_, hok3, Or.inl ⟨_, by rw [hpk]; rfl⟩⟩
          rw [show updateStatus true false c ⟨[(StatusType.choseong, a),
              (StatusType.jungseong, b), (StatusType.jungseongIjung, c2)],
              fl⟩ =
            (if true = false ∨ (jaeumToJongseong c).isSome = false then
              updateStatusFuel 2 true false c ⟨[], fl⟩
            else
              showInput ⟨[(StatusType.choseong, a), (StatusType.jungseong, b),
                (StatusType.jungseongIjung, c2), (StatusType.jongseong, c)],
                fl⟩ none) from rfl, hx]
          exact hsi
        · have hok2 : stackOk [(StatusType.choseong, a),
              (StatusType.jungseong, b), (StatusType.jungseongIjung, c2),
              (StatusType.jongseongSsang, c)] = true := by
            show ((chosOk a && (moeumCombinations (b, c2)).isSome) &&
              ((jaeumToJongseong c).isSome && (jaeumToChoseong c).isSome)) =
              true
            rw [hok, hxs, hc rfl]; rfl
          obtain ⟨e2, ops, hsi, hok3, hpk⟩ := push_case _ fl hok2
          refine ⟨e2, ops, ?_, hok3, Or.inl ⟨_, by rw [hpk]; rfl⟩⟩
          rw [show updateStatus true true c ⟨[(StatusType.choseong, a),
              (StatusType.jungseong, b), (StatusType.jungseongIjung, c2)],
              fl⟩ =
            (if true = false ∨ (jaeumToJongseong c).isSome = false then
              updateStatusFuel 2 true true c ⟨[], fl⟩
            else
              showInput ⟨[(StatusType.choseong, a), (StatusType.jungseong, b),
                (StatusType.jungseongIjung, c2),
                (StatusType.jongseongSsang, c)], fl⟩ none) from rfl, hx]
          exact hsi
  -- [CHOSEONG a, JUNGSEONG b, JONGSEONG c2]
  · rename_i a b c2
    cases j
    · obtain ⟨cl, hl⟩ := Option.isSome_iff_exists.mp
        (band_true_iff.mp ((band_true_iff.mp hok).2)).2
      obtain ⟨e2, ops, h2, hok2, hlen2⟩ := migrate_case ss c fl
        [(StatusType.choseong, a), (StatusType.jungseong, b)] c2 cl
        ((band_true_iff.mp hok).1) hl
      exact ⟨e2, ops, h2, hok2, Or.inr (Or.inr ⟨hlen2, by simp⟩)⟩
    · rcases hcb : jaeumCombinations (c2, c) with _ | cc
      · obtain ⟨e2, ops, h2, hok2, hlen1, hch1⟩ := reset_case true ss c fl hc
        refine ⟨e2, ops, ?_, hok2, Or.inr (Or.inl ⟨hlen1, hch1⟩)⟩
        rw [show updateStatus true ss c ⟨[(StatusType.choseong, a),
            (StatusType.jungseong, b), (StatusType.jongseong, c2)], fl⟩ =
          (if (jaeumCombinations (c2, c)).isSome = true then
            showInput ⟨[(StatusType.choseong, a), (StatusType.jungseong, b),
              (StatusType.jongseong, c2), (StatusType.jongseongGeop, c)],
              fl⟩ none
          else updateStatusFuel 2 true ss c ⟨[], fl⟩) from rfl, hcb]
        exact h2
      · have hok2 : stackOk [(StatusType.choseong, a),
            (StatusType.jungseong, b), (StatusType.jongseong, c2),
            (StatusType.jongseongGeop, c)] = true := by
          simp only [stackOk, geopOk, hcb, Bool.and_eq_true]
          exact ⟨(band_true_iff.mp hok).1, (band_true_iff.mp hok).2,
            ⟨jaeumCombinations_jongseong hcb, hc rfl⟩⟩
        obtain ⟨e2, ops, hsi, hok3, hpk⟩ := push_case _ fl hok2
        refine ⟨e2, ops, ?_, hok3, Or.inl ⟨_, by rw [hpk]; rfl⟩⟩
        rw [show updateStatus true ss c ⟨[(StatusType.choseong, a),
            (StatusType.jungseong, b), (StatusType.jongseong, c2)], fl⟩ =
          (if (jaeumCombinations (c2, c)).isSome = true then
            showInput ⟨[(StatusType.choseong, a), (StatusType.jungseong, b),
              (StatusType.jongseong, c2), (StatusType.jongseongGeop, c)],
              fl⟩ none
          else updateStatusFuel 2 true ss c ⟨[], fl⟩) from rfl, hcb]
        exact hsi
  -- [CHOSEONG a, JUNGSEONG b, JONGSEONG_SSANG c2]
  · rename_i a b c2
    cases j
    · obtain ⟨cl, hl⟩ := Option.isSome_iff_exists.mp
        (band_true_iff.mp ((band_true_iff.mp hok).2)).2
      obtain ⟨e2, ops, h2, hok2, hlen2⟩ := migrate_case ss c fl
        [(StatusType.choseong, a), (StatusType.jungseong, b)] c2 cl
        ((band_true_iff.mp hok).1) hl
      exact ⟨e2, ops, h2, hok2, Or.inr (Or.inr ⟨hlen2, by simp⟩)⟩
    · obtain ⟨e2, ops, h2, hok2, hlen1, hch1⟩ := reset_case true ss c fl hc
      exact ⟨e2, ops, h2, hok2, Or.inr (Or.inl ⟨hlen1, hch1⟩)⟩
  -- [CHOSEONG a, JUNGSEONG b, JUNGSEONG_IJUNG c2, JONGSEONG d]
  · rename_i a b c2 d
    cases j
    · obtain ⟨cl, hl⟩ := Option.isSome_iff_exists.mp
        (band_true_iff.mp ((band_true_iff.mp hok).2)).2
      obtain ⟨e2, ops, h2, hok2, hlen2⟩ := migrate_case ss c fl
        [(StatusType.choseong, a), (StatusType.jungseong, b),
         (StatusType.jungseongIjung, c2)] d cl
        ((band_true_iff.mp hok).1) hl
      exact ⟨e2, ops, h2, hok2, Or.inr (Or.inr ⟨hlen2, by simp⟩)⟩
    · rcases hcb : jaeumCombinations (d, c) with _ | cc
      · obtain ⟨e2, ops, h2, hok2, hlen1, hch1⟩ := reset_case true ss c fl hc
        refine ⟨e2, ops, ?_, hok2, Or.inr (Or.inl ⟨hlen1, hch1⟩)⟩
        rw [show updateStatus true ss c ⟨[(StatusType.choseong, a),
            (StatusType.jungseong, b), (StatusType.jungseongIjung, c2),
            (StatusType.jongseong, d)], fl⟩ =
          (if (jaeumCombinations (d, c)).isSome = true then
            showInput ⟨[(StatusType.choseong, a), (StatusType.jungseong, b),
              (StatusType.jungseongIjung, c2), (StatusType.jongseong, d),
              (StatusType.jongseongGeop, c)], fl⟩ none
          else updateStatusFuel 2 true ss c ⟨[], fl⟩) from rfl, hcb]
        exact h2
      · have hok2 : stackOk [(StatusType.choseong, a),
            (StatusType.jungseong, b), (StatusType.jungseongIjung, c2),
            (StatusType.jongseong, d), (StatusType.jongseongGeop, c)] =
            true := by
          simp only [stackOk, geopOk, hcb, Bool.and_eq_true]
          exact ⟨band_true_iff.mp ((band_true_iff.mp hok).1),
            (band_true_iff.mp hok).2,
            ⟨jaeumCombinations_jongseong hcb, hc rfl⟩⟩
        obtain ⟨e2, ops, hsi, hok3, hpk⟩ := push_case _ fl hok2
        refine ⟨e2, ops, ?_, hok3, Or.inl ⟨_, by rw [hpk]; rfl⟩⟩
        rw [show updateStatus true ss c ⟨[(StatusType.choseong, a),
            (StatusType.jungseong, b), (StatusType.jungseongIjung, c2),
            (StatusType.jongseong, d)], fl⟩ =
          (if (jaeumCombinations (d, c)).isSome = true then
            showInput ⟨[(StatusType.choseong, a), (StatusType.jungseong, b),
              (StatusType.jungseongIjung, c2), (StatusType.jongseong, d),
              (StatusType.jongseongGeop, c)], fl⟩ none
          else updateStatusFuel 2 true ss c ⟨[], fl⟩) from rfl, hcb]
        exact hsi
  -- [CHOSEONG a, JUNGSEONG b, JUNGSEONG_IJUNG c2, JONGSEONG_SSANG d]
  · rename_i a b c2 d
    cases j
    · obtain ⟨cl, hl⟩ := Option.isSome_iff_exists.mp
        (band_true_iff.mp ((band_true_iff.mp hok).2)).2
      obtain ⟨e2, ops, h2, hok2, hlen2⟩ := migrate_case ss c fl
        [(StatusType.choseong, a), (StatusType.jungseong, b),
         (StatusType.jungseongIjung, c2)] d cl
        ((band_true_iff.mp hok).1) hl
      exact ⟨e2, ops, h2, hok2, Or.inr (Or.inr ⟨hlen2, by simp⟩)⟩
    · obtain ⟨e2, ops, h2, hok2, hlen1, hch1⟩ := reset_case true ss c fl hc
      exact ⟨e2, ops, h2, hok2, Or.inr (Or.inl ⟨hlen1, hch1⟩)⟩
  -- [CHOSEONG a, JUNGSEONG b, JONGSEONG c2, JONGSEONG_GEOP d]
  · rename_i a b c2 d
    cases j
    · have hgeop := (band_true_iff.mp hok).2
      have hm := (band_true_iff.mp hgeop).2
      rcases hcomb : jaeumCombinations (c2, d) with _ | cc
      · rw [hcomb] at hm
        exact Bool.noConfusion hm
      · rw [hcomb] at hm
        obtain ⟨cl, hl⟩ := Option.isSome_iff_exists.mp
          (band_true_iff.mp hm).2
        obtain ⟨e2, ops, h2, hok2, hlen2⟩ := migrate_case ss c fl
          [(StatusType.choseong, a), (StatusType.jungseong, b),
           (StatusType.jongseong, c2)] d cl
          (band_true_iff.mpr ⟨(band_true_iff.mp hok).1,
            (band_true_iff.mp hgeop).1⟩) hl
        exact ⟨e2, ops, h2, hok2, Or.inr (Or.inr ⟨hlen2, by simp⟩)⟩
    · obtain ⟨e2, ops, h2, hok2, hlen1, hch1⟩ := reset_case true ss c fl hc
      exact ⟨e2, ops, h2, hok2, Or.inr (Or.inl ⟨hlen1, hch1⟩)⟩
  -- 5 slots ending in JONGSEONG_GEOP
  · rename_i a b c2 d e5
    cases j
    · have hgeop := (band_true_iff.mp hok).2
      have hm := (band_true_iff.mp hgeop).2
      rcases hcomb : jaeumCombinations (d, e5) with _ | cc
      · rw [hcomb] at hm
        exact Bool.noConfusion hm
      · rw [hcomb] at hm
        obtain ⟨cl, hl⟩ := Option.isSome_iff_exists.mp
          (band_true_iff.mp hm).2
        obtain ⟨e2, ops, h2, hok2, hlen2⟩ := migrate_case ss c fl
          [(StatusType.choseong, a), (StatusType.jungseong, b),
           (StatusType.jungseongIjung, c2), (StatusType.jongseong, d)] e5 cl
          (band_true_iff.mpr ⟨(band_true_iff.mp hok).1,
            (band_true_iff.mp hgeop).1⟩) hl
        exact ⟨e2, ops, h2, hok2, Or.inr (Or.inr ⟨hlen2, by simp⟩)⟩
    · obtain ⟨e2, ops, h2, hok2, hlen1, hch1⟩ := reset_case true ss c fl hc
      exact ⟨e2, ops, h2, hok2, Or.inr (Or.inl ⟨hlen1, hch1⟩)⟩
  -- invalid shapes
  · exact Bool.noConfusion hok

theorem selectJaeum_choseong {key : Nat} {codes : Nat × Option Nat}
    (sp : Bool) (hjk : jaeumKeys key = some codes) :
    (jaeumToChoseong (selectJaeum sp codes).2).isSome = true := by
  obtain ⟨p, so⟩ := codes
  obtain ⟨h1, h2⟩ := jaeumKeys_choseong hjk
  cases sp
  · simpa [selectJaeum] using h1
  · cases so with
    | none => simpa [selectJaeum] using h1
    | some s => simpa [selectJaeum] using h2 s rfl

theorem eventFilter_safe (f : QFilter) (ev : Ev)
    (hok : stackOk f.prevKeys = true) :
    ∃ f2 ops b, eventFilter f ev = some (f2, ops, b) ∧
      stackOk f2.prevKeys = true := by
  cases ev with
  | focusOut => exact ⟨{ f with prevKeys := [] }, [], false, rfl, rfl⟩
  | other => exact ⟨f, [], false, rfl, hok⟩
  | keyPress key mods ar =>
    simp only [eventFilter]
    by_cases hh : key = keyHangul
    · rw [if_pos hh]
      by_cases hm : f.isHangulMode = true
      · rw [if_pos hm]
        exact ⟨{ f with isHangulMode := false, prevKeys := [] }, [], true,
          rfl, rfl⟩
      · rw [if_neg hm]
        exact ⟨{ f with isHangulMode := true }, [], true, rfl, hok⟩
    · rw [if_neg hh]
      by_cases hmode : f.isHangulMode = false
      · rw [if_pos hmode]
        exact ⟨f, [], false, rfl, hok⟩
      · rw [if_neg hmode]
        by_cases hb : key = keyBackspace
        · rw [if_pos hb]
          by_cases hbs : ar = false ∧ f.prevKeys ≠ []
          · rw [if_pos hbs]
            obtain ⟨⟨e2, ops⟩, hsi⟩ := Option.isSome_iff_exists.mp
              (showInput_isSome
                ⟨f.prevKeys.dropLast, f.doNotRemovePrevChr⟩ (some false)
                (stackOk_dropLast hok))
            rw [hsi]
            refine ⟨_, _, _, rfl, ?_⟩
            show stackOk e2.prevKeys = true
            rw [showInput_prevKeys hsi]
            exact stackOk_dropLast hok
          · rw [if_neg hbs]
            exact ⟨f, [], false, rfl, hok⟩
        · rw [if_neg hb]
          by_cases hmods : mods - (mods &&& shiftModifier) ≠ 0
          · rw [if_pos hmods]
            exact ⟨{ f with prevKeys := [] }, [], false, rfl, rfl⟩
          · rw [if_neg hmods]
            rcases hjk : jaeumKeys key with _ | codes
            · rcases hmk : moeumKeys key with _ | codes
              · by_cases hk0 : key ≠ 0 ∧ key ≠ keyShift
                · rw [if_pos hk0]
                  exact ⟨{ f with prevKeys := [] }, [], false, rfl, rfl⟩
                · rw [if_neg hk0]
                  exact ⟨f, [], false, rfl, hok⟩
              · obtain ⟨e2, ops, h2, hok2, -⟩ := updateStatus_safe false false
                  (if decide (mods &&& shiftModifier ≠ 0) then codes.2
                   else codes.1)
                  f.prevKeys f.doNotRemovePrevChr hok
                  (fun h => Bool.noConfusion h)
                show ∃ f2 ops b,
                  (match updateStatus false false
                      (if decide (mods &&& shiftModifier ≠ 0) = true
                       then codes.2 else codes.1)
                      ⟨f.prevKeys, f.doNotRemovePrevChr⟩ with
                   | none => none
                   | some (e2, ops) =>
                     some ({ f with
                               prevKeys := e2.prevKeys,
                               doNotRemovePrevChr := e2.doNotRemovePrevChr },
                           ops, true)) = some (f2, ops, b) ∧
                    stackOk f2.prevKeys = true
                rw [h2]
                exact ⟨_, _, _, rfl, hok2⟩
            · obtain ⟨e2, ops, h2, hok2, -⟩ := updateStatus_safe true
                (selectJaeum (decide (mods &&& shiftModifier ≠ 0)) codes).1
                (selectJaeum (decide (mods &&& shiftModifier ≠ 0)) codes).2
                f.prevKeys f.doNotRemovePrevChr hok
                (fun _ => selectJaeum_choseong _ hjk)
              show ∃ f2 ops b,
                (match updateStatus true
                    (selectJaeum (decide (mods &&& shiftModifier ≠ 0))
                      codes).1
                    (selectJaeum (decide (mods &&& shiftModifier ≠ 0))
                      codes).2
                    ⟨f.prevKeys, f.doNotRemovePrevChr⟩ with
                 | none => none
                 | some (e2, ops) =>
                   some ({ f with
                             prevKeys := e2.prevKeys,
                             doNotRemovePrevChr := e2.doNotRemovePrevChr },
                         ops, true)) = some (f2, ops, b) ∧
                  stackOk f2.prevKeys = true
              rw [h2]
              exact ⟨_, _, _, rfl, hok2⟩

theorem processEvents_safe (evs : List Ev) (f : QFilter)
    (hok : stackOk f.prevKeys = true) :
    ∃ f2, processEvents evs f = some f2 ∧ stackOk f2.prevKeys = true := by
  induction evs generalizing f with
  | nil => exact ⟨f, rfl, hok⟩
  | cons ev rest ih =>
    obtain ⟨f2, ops, b, h2, hok2⟩ := eventFilter_safe f ev hok
    obtain ⟨f3, h3, hok3⟩ := ih f2 hok2
    refine ⟨f3, ?_, hok3⟩
    unfold processEvents
    rw [h2]
    exact h3

theorem stackOk_length {s : List Slot} (hok : stackOk s = true) :
    s.length ≤ 5 := by
  unfold stackOk at hok
  split at hok
  all_goals simp_all

theorem runInputs_safe : ∀ (l : List JInput),
    (∀ i ∈ l, inputOk i = true) →
    ∀ pk fl e2, stackOk pk = true → runInputs l ⟨pk, fl⟩ = some e2 →
    stackOk e2.prevKeys = true := by
  intro l
  induction l with
  | nil =>
    intro _ pk fl e2 hok h
    have h' : some (⟨pk, fl⟩ : Engine) = some e2 := h
    injection h' with h2
    rw [← h2]
    exact hok
  | cons i rest ih =>
    intro hl pk fl e2 hok h
    have hlr : ∀ i ∈ rest, inputOk i = true :=
      fun i hi => hl i (List.mem_cons_of_mem _ hi)
    cases i with
    | jamo j s c =>
      have hc : j = true → (jaeumToChoseong c).isSome = true := by
        intro hj
        have hin := hl _ (List.mem_cons_self _ _)
        rw [hj] at hin
        simpa [inputOk] using hin
      obtain ⟨e3, ops, h3, hok3, -⟩ := updateStatus_safe j s c pk fl hok hc
      unfold runInputs at h
      simp only [stepInput] at h
      rw [h3] at h
      have h' : runInputs rest e3 = some e2 := h
      exact ih hlr e3.prevKeys e3.doNotRemovePrevChr e2 hok3 h'
    | backspace =>
      unfold runInputs at h
      simp only [stepInput] at h
      by_cases hne : pk = []
      · rw [if_pos hne] at h
        have h' : runInputs rest ⟨pk, fl⟩ = some e2 := h
        exact ih hlr pk fl e2 hok h'
      · rw [if_neg hne] at h
        obtain ⟨⟨e3, ops⟩, hsi⟩ := Option.isSome_iff_exists.mp
          (showInput_isSome ⟨pk.dropLast, fl⟩ (some false)
            (stackOk_dropLast hok))
        rw [hsi] at h
        have h' : runInputs rest e3 = some e2 := h
        have hok3 : stackOk e3.prevKeys = true := by
          rw [showInput_prevKeys hsi]
          exact stackOk_dropLast hok
        exact ih hlr e3.prevKeys e3.doNotRemovePrevChr e2 hok3 h'

theorem updateStatusFuel_geop_vowel (n : Nat) (ss : Bool) (v : Nat)
    (pk2 : List Slot) (c1 : Nat) (fl : Bool)
    (hlast : pk2.getLast? = some (StatusType.jongseongGeop, c1)) :
    updateStatusFuel (n + 1) false ss v ⟨pk2, fl⟩ =
      (match showInput ⟨pk2.dropLast, fl⟩ none with
       | none => none
       | some (_, ops1) =>
         match updateStatusFuel n false ss v
             ⟨[(StatusType.choseong, c1)], true⟩ with
         | none => none
         | some (e4, ops2) => some (e4, ops1 ++ ops2)) := by
  rw [updateStatusFuel, hlast]
  rfl

/-- C1: for every composition stack whose first slot is `INITIAL(i)` with
`ToInitial(i)` defined, followed by a medial group (a plain `MEDIAL(m)`, or
a `MEDIAL`/`MEDIAL_COMBINED` pair resolving through the vowel-combination
table to the combined vowel identity `m`), and optionally a final slot
group resolving through `ToFinal` to final index `f` (`f = 0` when no
final group is present), the renderer returns exactly the character with
codepoint `0xAC00 + (ToInitial(i) * 21 + m) * 28 + f`. -/
theorem renderer_syllable_formula (i m f ci : Nat) (med fin : List Slot)
    (hci : jaeumToChoseong i = some ci)
    (hmed : med = [(StatusType.jungseong, m)] ∨
      ∃ m0 m1, med = [(StatusType.jungseong, m0),
        (StatusType.jungseongIjung, m1)] ∧
        moeumCombinations (m0, m1) = some m)
    (hfin : (fin = [] ∧ f = 0) ∨
      (∃ cf, (fin = [(StatusType.jongseong, cf)] ∨
        fin = [(StatusType.jongseongSsang, cf)]) ∧
        jaeumToJongseong cf = some f) ∨
      (∃ c0 c1 cc, fin = [(StatusType.jongseong, c0),
        (StatusType.jongseongGeop, c1)] ∧
        jaeumCombinations (c0, c1) = some cc ∧
        jaeumToJongseong cc = some f)) :
    getCurrentChar ((StatusType.choseong, i) :: (med ++ fin)) =
      some (some (0xAC00 + (ci * 21 + m) * 28 + f)) := by
  rcases hmed with rfl | ⟨m0, m1, rfl, hmc⟩
  · rcases hfin with ⟨rfl, rfl⟩ |
      ⟨cf, hcf | hcf, hf⟩ | ⟨c0, c1, cc, rfl, hcb, hf⟩
    · simp [getCurrentChar, renderLoop, hci]
      omega
    · subst hcf
      simp [getCurrentChar, renderLoop, hci, hf]
      omega
    · subst hcf
      simp [getCurrentChar, renderLoop, hci, hf]
      omega
    · simp [getCurrentChar, renderLoop, hci, hcb, hf]
      omega
  · rcases hfin with ⟨rfl, rfl⟩ |
      ⟨cf, hcf | hcf, hf⟩ | ⟨c0, c1, cc, rfl, hcb, hf⟩
    · simp [getCurrentChar, renderLoop, hci, hmc]
      omega
    · subst hcf
      simp [getCurrentChar, renderLoop, hci, hmc, hf]
      omega
    · subst hcf
      simp [getCurrentChar, renderLoop, hci, hmc, hf]
      omega
    · simp [getCurrentChar, renderLoop, hci, hmc, hcb, hf]
      omega

/-- Witness for the renderer formula: the stack `[INITIAL(ㄱ), MEDIAL(ㅏ)]`
renders to the syllable 가 (`0xAC00`). -/
theorem renderer_syllable_formula_instance :
    jaeumToChoseong 0 = some 0 ∧
    getCurrentChar [(StatusType.choseong, 0), (StatusType.jungseong, 0)] =
      some (some 0xAC00) :=
  ⟨by decide, by
    have := renderer_syllable_formula 0 0 0 0 [(StatusType.jungseong, 0)] []
      (by decide) (Or.inl rfl) (Or.inl ⟨rfl, rfl⟩)
    simpa using this⟩

/-- C2: feeding consonant ㄱ (code 0), vowel ㅏ (code 0), consonant ㅂ
(code 17), vowel ㅏ (code 0) into an empty engine emits exactly the ops
ㄱ; retract, 가; retract, 갑; retract, 가, 바 — the vowel removes the
simple FINAL ㅂ, re-renders the old syllable without it, seeds a new stack
with ㅂ as INITIAL, folds the vowel in, and appends 바 as a separate
character, leaving the text surface with exactly 가 then 바. -/
theorem migration_ga_ba_scenario :
    runInputsOps [JInput.jamo true false 0, JInput.jamo false false 0,
        JInput.jamo true false 17, JInput.jamo false false 0]
        ⟨[], false⟩ =
      some (⟨[(StatusType.choseong, 17), (StatusType.jungseong, 0)], false⟩,
        [DispOp.write 0x3131, DispOp.remove, DispOp.write 0xAC00,
         DispOp.remove, DispOp.write 0xAC11, DispOp.remove,
         DispOp.write 0xAC00, DispOp.write 0xBC14]) ∧
    applyOps [DispOp.write 0x3131, DispOp.remove, DispOp.write 0xAC00,
      DispOp.remove, DispOp.write 0xAC11, DispOp.remove,
      DispOp.write 0xAC00, DispOp.write 0xBC14] [] = [0xAC00, 0xBC14] := by
  decide

/-- C7: a reset never touches the previously displayed character: with
`[INITIAL(c1)]` displayed, a second consonant input discards the stack,
re-applies the input to an empty stack, and emits only a write of the new
standalone consonant — interpreting the ops against a buffer already
holding the first consonant leaves two separate characters, the first
unmodified. -/
theorem reset_leaves_previous_char (c1 c2 : Nat) (ss fl : Bool) :
    updateStatus true ss c2 ⟨[(StatusType.choseong, c1)], fl⟩ =
      some (⟨[(StatusType.choseong, c2)], false⟩,
        [DispOp.write (c2 + 0x3131)]) ∧
    applyOps [DispOp.write (c2 + 0x3131)] [c1 + 0x3131] =
      [c1 + 0x3131, c2 + 0x3131] := by
  constructor
  · exact updateStatusFuel_empty 1 true ss c2 fl
  · rfl

/-- C3 counterexample: build 갃 = `[INITIAL(ㄱ), MEDIAL(ㅏ), FINAL(ㄱ),
FINAL_CLUSTER(ㅅ)]` by keystrokes, then feed vowel ㅏ.  The code migrates
only the second cluster member ㅅ (code 20) — not the combined cluster
identity `ConsonantCombine(0, 20) = 2` — and the re-rendered old syllable
is 각 (`0xAC01`), which still carries the first member as its final, so
the old stack is not left without a final consonant. -/
theorem cluster_migration_whole_identity_refuted :
    runInputs [JInput.jamo true false 0, JInput.jamo false false 0,
        JInput.jamo true false 0, JInput.jamo true false 20] ⟨[], false⟩ =
      some ⟨[(StatusType.choseong, 0), (StatusType.jungseong, 0),
        (StatusType.jongseong, 0), (StatusType.jongseongGeop, 20)],
        false⟩ ∧
    jaeumCombinations (0, 20) = some 2 ∧
    updateStatus false false 0
        ⟨[(StatusType.choseong, 0), (StatusType.jungseong, 0),
          (StatusType.jongseong, 0), (StatusType.jongseongGeop, 20)],
          false⟩ =
      some (⟨[(StatusType.choseong, 20), (StatusType.jungseong, 0)], false⟩,
        [DispOp.remove, DispOp.write 0xAC01, DispOp.write 0xC0AC]) ∧
    ¬ ∃ rest fl2 ops, updateStatus false false 0
        ⟨[(StatusType.choseong, 0), (StatusType.jungseong, 0),
          (StatusType.jongseong, 0), (StatusType.jongseongGeop, 20)],
          false⟩ =
        some (⟨(StatusType.choseong, 2) :: rest, fl2⟩, ops) := by
  refine ⟨by decide, by decide, by decide, ?_⟩
  rintro ⟨rest, fl2, ops, hco⟩
  rw [show updateStatus false false 0
      ⟨[(StatusType.choseong, 0), (StatusType.jungseong, 0),
        (StatusType.jongseong, 0), (StatusType.jongseongGeop, 20)],
        false⟩ =
    some (⟨[(StatusType.choseong, 20), (StatusType.jungseong, 0)], false⟩,
      [DispOp.remove, DispOp.write 0xAC01, DispOp.write 0xC0AC])
    from by decide] at hco
  simp at hco

/-- C3 amended: when a vowel arrives while the top slot is
`FINAL_CLUSTER`, only the second cluster member (the `FINAL_CLUSTER`
slot's own code `c1`) migrates to become the `INITIAL` of the new stack;
the old stack keeps its `FINAL(c0)` slot, and the re-rendered old
character is whatever the stack renders with that simple final still in
place. -/
theorem cluster_migration_second_member (pre : List Slot) (c0 c1 v cl : Nat)
    (ss : Bool) (ch : Nat)
    (hpre : pre ≠ [])
    (hch : getCurrentChar (pre ++ [(StatusType.jongseong, c0)]) =
      some (some ch))
    (hcl : jaeumToChoseong c1 = some cl) :
    updateStatus false ss v
        ⟨pre ++ [(StatusType.jongseong, c0), (StatusType.jongseongGeop, c1)],
          false⟩ =
      some (⟨[(StatusType.choseong, c1), (StatusType.jungseong, v)], false⟩,
        [DispOp.remove, DispOp.write ch,
         DispOp.write (v * 28 + cl * 588 + 0xAC00)]) := by
  have hsplit : pre ++ [(StatusType.jongseong, c0),
      (StatusType.jongseongGeop, c1)] =
      (pre ++ [(StatusType.jongseong, c0)]) ++
        [(StatusType.jongseongGeop, c1)] := by simp
  have hlast : (pre ++ [(StatusType.jongseong, c0),
      (StatusType.jongseongGeop, c1)]).getLast? =
      some (StatusType.jongseongGeop, c1) := by
    rw [hsplit]
    exact List.getLast?_concat _
  have hdrop : (pre ++ [(StatusType.jongseong, c0),
      (StatusType.jongseongGeop, c1)]).dropLast =
      pre ++ [(StatusType.jongseong, c0)] := by
    rw [hsplit]
    exact List.dropLast_concat
  have hp0 : pre.length ≠ 0 := fun h0 => hpre (List.length_eq_zero.mp h0)
  have hlen0 : ¬ (pre ++ [(StatusType.jongseong, c0)]).length = 0 := by
    simp
  have hlen1 : (pre ++ [(StatusType.jongseong, c0)]).length ≠ 1 := by
    simp only [List.length_append, List.length_cons, List.length_nil]
    omega
  have hshow : showInput ⟨pre ++ [(StatusType.jongseong, c0)], false⟩
      none =
      some (⟨pre ++ [(StatusType.jongseong, c0)], false⟩,
        [DispOp.remove, DispOp.write ch]) := by
    unfold showInput
    rw [hch]
    simp [hlen0, hlen1, hpre]
  rw [show updateStatus false ss v
      ⟨pre ++ [(StatusType.jongseong, c0), (StatusType.jongseongGeop, c1)],
        false⟩ =
    updateStatusFuel (2 + 1) false ss v
      ⟨pre ++ [(StatusType.jongseong, c0), (StatusType.jongseongGeop, c1)],
        false⟩ from rfl,
    updateStatusFuel_geop_vowel 2 ss v _ c1 false hlast, hdrop, hshow,
    show (2 : Nat) = 1 + 1 from rfl,
    updateStatusFuel_seed 1 ss v c1 cl hcl]
  rfl

/-- Witness for the amended cluster-migration rule: 갃 plus vowel ㅏ
yields old character 각 and new stack 사. -/
theorem cluster_migration_second_member_instance :
    ([(StatusType.choseong, 0), (StatusType.jungseong, 0)] : List Slot) ≠
      [] ∧
    getCurrentChar [(StatusType.choseong, 0), (StatusType.jungseong, 0),
      (StatusType.jongseong, 0)] = some (some 0xAC01) ∧
    jaeumToChoseong 20 = some 9 ∧
    updateStatus false false 0
        ⟨[(StatusType.choseong, 0), (StatusType.jungseong, 0),
          (StatusType.jongseong, 0), (StatusType.jongseongGeop, 20)],
          false⟩ =
      some (⟨[(StatusType.choseong, 20), (StatusType.jungseong, 0)], false⟩,
        [DispOp.remove, DispOp.write 0xAC01,
         DispOp.write (0 * 28 + 9 * 588 + 0xAC00)]) :=
  ⟨by decide, by decide, by decide,
    cluster_migration_second_member
      [(StatusType.choseong, 0), (StatusType.jungseong, 0)] 0 20 0 9 false
      0xAC01 (by decide) (by decide) (by decide)⟩

/-- C4 counterexample: the keystroke sequence ㄱ ㅗ ㅏ ㄱ ㅅ (all valid
jamo inputs) drives the stack to the five-slot shape
`[INITIAL, MEDIAL, MEDIAL_DIPHTHONG, FINAL, FINAL_CLUSTER]`, so the stack
does exceed four entries. -/
theorem stack_length_four_refuted :
    (∀ i ∈ [JInput.jamo true false 0, JInput.jamo false false 8,
        JInput.jamo false false 0, JInput.jamo true false 0,
        JInput.jamo true false 20], inputOk i = true) ∧
    runInputs [JInput.jamo true false 0, JInput.jamo false false 8,
        JInput.jamo false false 0, JInput.jamo true false 0,
        JInput.jamo true false 20] ⟨[], false⟩ =
      some ⟨[(StatusType.choseong, 0), (StatusType.jungseong, 8),
        (StatusType.jungseongIjung, 0), (StatusType.jongseong, 0),
        (StatusType.jongseongGeop, 20)], false⟩ ∧
    ¬ ([(StatusType.choseong, 0), (StatusType.jungseong, 8),
        (StatusType.jungseongIjung, 0), (StatusType.jongseong, 0),
        (StatusType.jongseongGeop, 20)] : List Slot).length ≤ 4 := by
  decide

/-- C4 amended: starting from the empty stack, any sequence of
well-formed jamo / backspace inputs leaves the composition stack with at
most five entries. -/
theorem stack_length_at_most_five (l : List JInput) (e2 : Engine)
    (hl : ∀ i ∈ l, inputOk i = true)
    (h : runInputs l ⟨[], false⟩ = some e2) :
    e2.prevKeys.length ≤ 5 :=
  stackOk_length (runInputs_safe l hl [] false e2 rfl h)

/-- Witness for the five-entry bound at a single-key input. -/
theorem stack_length_at_most_five_instance :
    (∀ i ∈ [JInput.jamo true false 0], inputOk i = true) ∧
    runInputs [JInput.jamo true false 0] ⟨[], false⟩ =
      some ⟨[(StatusType.choseong, 0)], false⟩ ∧
    (⟨[(StatusType.choseong, 0)], false⟩ : Engine).prevKeys.length ≤ 5 :=
  ⟨by decide, by decide,
    stack_length_at_most_five [JInput.jamo true false 0]
      ⟨[(StatusType.choseong, 0)], false⟩ (by decide) (by decide)⟩

/-- C5 counterexample: in Hangul mode, the unrecognized key 32 (Space,
no modifiers) does not leave the composition stack untouched — the filter
CLEARS `prev_keys` (and still returns `False`). -/
theorem unrecognized_key_preserves_stack_refuted :
    eventFilter ⟨true, false, [(StatusType.choseong, 0)]⟩
        (Ev.keyPress 32 0 false) =
      some (⟨true, false, []⟩, [], false) ∧
    ([(StatusType.choseong, 0)] : List Slot) ≠ [] := by
  decide

/-- C5 amended: in Hangul mode, a key press that is neither Hangul,
Backspace, a jaeum key nor a moeum key, with no modifiers beyond Shift,
clears the composition stack (unless the key is 0 or Key_Shift, which
leave it alone) and is not consumed. -/
theorem unrecognized_key_clears_stack (f : QFilter) (key mods : Nat)
    (ar : Bool)
    (hmode : f.isHangulMode = true)
    (hh : key ≠ keyHangul)
    (hb : key ≠ keyBackspace)
    (hmods : mods - (mods &&& shiftModifier) = 0)
    (hj : jaeumKeys key = none)
    (hm : moeumKeys key = none) :
    eventFilter f (Ev.keyPress key mods ar) =
      some ({ f with prevKeys :=
        if key = 0 ∨ key = keyShift then f.prevKeys else [] }, [], false) := by
  obtain ⟨m, d, pk⟩ := f
  have hm2 : m = true := hmode
  subst hm2
  simp only [eventFilter]
  rw [if_neg hh, if_neg (by decide : ¬ (true = false)), if_neg hb,
    if_neg (fun hcon => hcon hmods), hj, hm]
  by_cases hk : key = 0 ∨ key = keyShift
  · have hnand : ¬ (key ≠ 0 ∧ key ≠ keyShift) := fun hcon =>
      hk.elim (fun h0 => hcon.1 h0) (fun hs => hcon.2 hs)
    rw [if_neg hnand, if_pos hk]
  · rw [if_pos ⟨fun h0 => hk (Or.inl h0), fun hs => hk (Or.inr hs)⟩,
      if_neg hk]

/-- Witness for the stack-clearing rule at key 32 with no modifiers. -/
theorem unrecognized_key_clears_stack_instance :
    (⟨true, false, [(StatusType.choseong, 5)]⟩ : QFilter).isHangulMode =
      true ∧
    eventFilter ⟨true, false, [(StatusType.choseong, 5)]⟩
        (Ev.keyPress 32 0 false) =
      some ({ (⟨true, false, [(StatusType.choseong, 5)]⟩ : QFilter) with
        prevKeys := if 32 = 0 ∨ 32 = keyShift then
          (⟨true, false, [(StatusType.choseong, 5)]⟩ : QFilter).prevKeys
          else [] }, [], false) :=
  ⟨rfl, unrecognized_key_clears_stack ⟨true, false, [(StatusType.choseong, 5)]⟩
    32 0 false rfl (by decide) (by decide) (by decide) (by decide)
    (by decide)⟩

/-- C6 counterexample: with 가 = `[INITIAL(ㄱ), MEDIAL(ㅏ)]` composed,
typing ㅉ (code 24, which has no final-consonant form) resets the stack —
yet the posted display operations are just `[write ㅉ]`: no `remove` is
emitted, so the previously composed character is not retracted. -/
theorem reset_retract_refuted :
    updateStatus true false 24
        ⟨[(StatusType.choseong, 0), (StatusType.jungseong, 0)], false⟩ =
      some (⟨[(StatusType.choseong, 24)], false⟩, [DispOp.write 0x3149]) ∧
    DispOp.remove ∉ [DispOp.write 0x3149] := by
  decide

/-- C6 amended: whenever a jamo input makes the engine reset the stack
(the new stack has exactly one slot while the old stack was non-empty),
the display operations consist of a single `write` and contain no
`remove` — the previous character is left on screen untouched. -/
theorem reset_emits_only_write (j ss : Bool) (c : Nat) (pk : List Slot)
    (fl : Bool) (e2 : Engine) (ops : List DispOp)
    (hok : stackOk pk = true)
    (hc : j = true → (jaeumToChoseong c).isSome = true)
    (hne : pk ≠ [])
    (h : updateStatus j ss c ⟨pk, fl⟩ = some (e2, ops))
    (hlen : e2.prevKeys.length = 1) :
    (∃ ch, ops = [DispOp.write ch]) ∧ DispOp.remove ∉ ops := by
  obtain ⟨e2', ops', heq, hok2, hsc⟩ := updateStatus_safe j ss c pk fl hok hc
  rw [h] at heq
  injection heq with heq
  cases heq
  rcases hsc with ⟨slot, hpush⟩ | ⟨_, ch, hch⟩ | ⟨hlen2, _⟩
  · rw [hpush] at hlen
    simp only [List.length_append, List.length_cons, List.length_nil] at hlen
    exact absurd (List.length_eq_zero.mp (by omega)) hne
  · refine ⟨⟨ch, hch⟩, ?_⟩
    rw [hch]
    simp
  · omega

/-- Witness for the reset rule: ㅉ after 가 posts exactly one write. -/
theorem reset_emits_only_write_instance :
    (∃ ch, [DispOp.write 0x3149] = [DispOp.write ch]) ∧
    DispOp.remove ∉ [DispOp.write 0x3149] :=
  reset_emits_only_write true false 24
    [(StatusType.choseong, 0), (StatusType.jungseong, 0)] false
    ⟨[(StatusType.choseong, 24)], false⟩ [DispOp.write 0x3149]
    (by decide) (fun _ => by decide) (by decide) (by decide) (by decide)

/-- C8: backspace as a left inverse of jamo input on the displayed
character: whenever a jamo input pushes a new slot (the stack grows by
one), dropping the last slot — which is exactly what the Backspace
handler does — renders the same character as before the input. -/
theorem backspace_left_inverse (j ss : Bool) (c : Nat) (pk : List Slot)
    (fl : Bool) (e2 : Engine) (ops : List DispOp)
    (hok : stackOk pk = true)
    (hc : j = true → (jaeumToChoseong c).isSome = true)
    (h : updateStatus j ss c ⟨pk, fl⟩ = some (e2, ops))
    (hlen : e2.prevKeys.length = pk.length + 1) :
    getCurrentChar e2.prevKeys.dropLast = getCurrentChar pk := by
  obtain ⟨e2', ops', heq, hok2, hsc⟩ := updateStatus_safe j ss c pk fl hok hc
  rw [h] at heq
  injection heq with heq
  cases heq
  rcases hsc with ⟨slot, hpush⟩ | ⟨hlen1, _⟩ | ⟨hlen2, hge3⟩
  · rw [hpush, List.dropLast_concat]
  · have hpk0 : pk.length = 0 := by omega
    have hd0 : e2.prevKeys.dropLast.length = 0 := by
      rw [List.length_dropLast]
      omega
    rw [List.length_eq_zero.mp hd0, List.length_eq_zero.mp hpk0]
  · omega

/-- Witness for backspace inversion: ㅏ after ㄱ then drop-last restores
the lone ㄱ. -/
theorem backspace_left_inverse_instance :
    stackOk [(StatusType.choseong, 0)] = true ∧
    updateStatus false false 0 ⟨[(StatusType.choseong, 0)], false⟩ =
      some (⟨[(StatusType.choseong, 0), (StatusType.jungseong, 0)], false⟩,
        [DispOp.remove, DispOp.write 0xAC00]) ∧
    getCurrentChar ([(StatusType.choseong, 0),
      (StatusType.jungseong, 0)] : List Slot).dropLast =
      getCurrentChar [(StatusType.choseong, 0)] :=
  ⟨by decide, by decide,
    backspace_left_inverse false false 0 [(StatusType.choseong, 0)] false
      ⟨[(StatusType.choseong, 0), (StatusType.jungseong, 0)], false⟩
      [DispOp.remove, DispOp.write 0xAC00] (by decide)
      (fun hcon => by cases hcon) (by decide) (by decide)⟩

/-- C9: starting from the initial filter state, no finite sequence of
events makes event processing raise: every `KeyError`, `AssertionError`
and recursion-depth hazard modelled by `none` is avoided, and the stack
invariant holds throughout. -/
theorem processing_never_raises (evs : List Ev) :
    ∃ f2, processEvents evs filterInit = some f2 ∧
      stackOk f2.prevKeys = true :=
  processEvents_safe evs filterInit rfl

/-- C10: pressing a consonant key that has no shifted (ssang) variant
while Shift is held behaves exactly like an unshifted press — the `None`
entry falls back to the plain code with `is_ssangjaeum = False`, and the
event is consumed. -/
theorem shiftless_consonant_key_plain (f : QFilter) (key p : Nat)
    (ar : Bool)
    (hmode : f.isHangulMode = true)
    (hh : key ≠ keyHangul)
    (hb : key ≠ keyBackspace)
    (hj : jaeumKeys key = some (p, none)) :
    eventFilter f (Ev.keyPress key shiftModifier ar) =
      (match updateStatus true false p
          ⟨f.prevKeys, f.doNotRemovePrevChr⟩ with
       | none => none
       | some (e2, ops) =>
         some ({ f with
           doNotRemovePrevChr := e2.doNotRemovePrevChr,
           prevKeys := e2.prevKeys }, ops, true)) := by
  obtain ⟨m, d, pk⟩ := f
  have hm2 : m = true := hmode
  subst hm2
  simp only [eventFilter]
  rw [if_neg hh, if_neg (by decide : ¬ (true = false)), if_neg hb,
    if_neg (fun hcon => hcon (by decide :
      shiftModifier - (shiftModifier &&& shiftModifier) = 0)), hj]
  rfl

/-- Witness for the no-ssang fallback: Shift+S still yields plain ㄷ
(code 3), written as the jamo ㄷ. -/
theorem shiftless_consonant_key_plain_instance :
    (⟨true, false, []⟩ : QFilter).isHangulMode = true ∧
    jaeumKeys 83 = some (3, none) ∧
    eventFilter ⟨true, false, []⟩ (Ev.keyPress 83 shiftModifier false) =
      (match updateStatus true false 3 ⟨[], false⟩ with
       | none => none
       | some (e2, ops) =>
         some ({ (⟨true, false, []⟩ : QFilter) with
           doNotRemovePrevChr := e2.doNotRemovePrevChr,
           prevKeys := e2.prevKeys }, ops, true)) :=
  ⟨rfl, by decide,
    shiftless_consonant_key_plain ⟨true, false, []⟩ 83 3 false rfl
      (by decide) (by decide) (by decide)⟩
